import Mathlib

/-!
Verification development for the lisa-loop orchestrator (Rust).

Shallow embedding of the parts of the source relevant to the pipeline
state machine: the plan-document task parser and status fingerprint
(src/tasks.rs), the persisted spiral state and its serialization
(src/state.rs), the usage ledger and budget check (src/usage.rs), the
DDV-isolation enforcement (src/enforcement.rs), the review gates
(src/review.rs), and the build loop with dual-signal stall detection
plus the resume dispatch (src/orchestrator.rs).

Modelling conventions:
- Rust `String`/`&str` becomes `String` (with helpers on `List Char`
  mirroring the byte-level scanning of the `regex` crate patterns used
  by the source; character classes are modelled on their ASCII
  behaviour, which covers every status/heading token the program
  compares against).
- `u32`/`u64` counters become `Nat`; the only place a `u32` range check
  is observable (`caps[1].parse::<u32>()` in `parse_tasks`) is modelled
  explicitly.
- `f64` money amounts become `ℚ`.
- File-system and git effects are modelled as explicit data: the build
  loop takes the per-iteration observations (task counts, fingerprint,
  git diff signal, human block-gate choice) as an environment function,
  and `save_state`/`save_usage` are modelled by the sequence of
  file-system operations they issue.
-/

namespace Lisa

/-! ## String scanning helpers (models of Rust `str` / `regex` behaviour) -/

/-- Model of Rust `str::contains` (substring occurrence test). -/
def containsSub (pat : List Char) : List Char → Bool
  | [] => pat.isEmpty
  | c :: t => pat.isPrefixOf (c :: t) || containsSub pat t

/-- Rust `command.contains(pat)` on `String`s. -/
def strContains (s pat : String) : Bool := containsSub pat.data s.data

/-- Rust `path.starts_with(pat)` on `String`s. -/
def strStartsWith (s pat : String) : Bool := pat.data.isPrefixOf s.data

/-- Rust `path.ends_with(pat)` on `String`s. -/
def strEndsWith (s pat : String) : Bool := pat.data.isSuffixOf s.data

/-- Regex `\w` (word character), ASCII behaviour. -/
def isWordChar (c : Char) : Bool := c.isAlphanum || c == '_'

/-- Consume `\s+` (one or more whitespace characters) at the front of the
input and return the rest, or `none` when the front is not whitespace. -/
def afterWsPlus : List Char → Option (List Char)
  | [] => none
  | c :: rest => if c.isWhitespace then some (rest.dropWhile (·.isWhitespace)) else none

/-! ## tasks.rs — plan-document parsing -/

/-- Rust regex `(?i)^#{2,4}\s+Task\s+\d` from `parse_tasks` (tasks.rs:90),
anchored at the start of a line: two to four `#`, whitespace, the word
`Task` case-insensitively, whitespace, a digit.  A run of five or more
`#` cannot match, since the character after the 2..4 consumed hashes
would be another `#`, not whitespace. -/
def isTaskHeading (line : List Char) : Bool :=
  let n := (line.takeWhile (· == '#')).length
  decide (2 ≤ n) && decide (n ≤ 4) &&
    (match afterWsPlus (line.drop n) with
     | none => false
     | some r1 =>
       ((r1.take 4).map Char.toLower == ['t', 'a', 's', 'k']) &&
         (match afterWsPlus (r1.drop 4) with
          | none => false
          | some r2 =>
            match r2 with
            | c :: _ => c.isDigit
            | [] => false))

def statusTag : List Char := "**Status:**".data

/-- Try to match `\*\*Status:\*\*\s+(\w+)` at the current position,
returning the capture group. -/
def tryStatusAt (cs : List Char) : Option (List Char) :=
  if statusTag.isPrefixOf cs then
    match afterWsPlus (cs.drop statusTag.length) with
    | none => none
    | some r =>
      let w := r.takeWhile isWordChar
      if w.isEmpty then none else some w
  else none

/-- Leftmost match of `\*\*Status:\*\*\s+(\w+)` (tasks.rs:91): the capture
of the first position at which the whole pattern matches. -/
def statusCapture : List Char → Option (List Char)
  | [] => none
  | c :: t =>
    match tryStatusAt (c :: t) with
    | some w => some w
    | none => statusCapture t

def passTag : List Char := "**Pass:**".data

/-- Try to match `\*\*Pass:\*\*\s*(\d+)` at the current position,
returning the captured digit run. -/
def tryPassAt (cs : List Char) : Option (List Char) :=
  if passTag.isPrefixOf cs then
    let r := (cs.drop passTag.length).dropWhile (·.isWhitespace)
    let ds := r.takeWhile (·.isDigit)
    if ds.isEmpty then none else some ds
  else none

/-- Leftmost match of `\*\*Pass:\*\*\s*(\d+)` (tasks.rs:92). -/
def passCaptureRaw : List Char → Option (List Char)
  | [] => none
  | c :: t =>
    match tryPassAt (c :: t) with
    | some ds => some ds
    | none => passCaptureRaw t

/-- Numeric value of a digit run. -/
def digitsVal (ds : List Char) : Nat := ds.foldl (fun n c => n * 10 + (c.toNat - '0'.toNat)) 0

/-- Rust `caps[1].parse::<u32>()`: succeeds exactly when the value fits
in a `u32`. -/
def parsePassU32 (ds : List Char) : Option Nat :=
  if digitsVal ds < 2 ^ 32 then some (digitsVal ds) else none

/-- One parsed plan task (tasks.rs:83-87). -/
structure Task where
  pass : Nat
  status : String
deriving DecidableEq, Repr

/-- Model of Rust `str::lines`: split on `'\n'`; a line terminated by
`"\r\n"` loses the `'\r'`; a final segment is kept only when nonempty
(a trailing `'\r'` with no newline after it is kept). -/
def splitOnNewline : List Char → List (List Char)
  | [] => [[]]
  | c :: t =>
    if c == '\n' then [] :: splitOnNewline t
    else
      match splitOnNewline t with
      | [] => [[c]]
      | h :: r => (c :: h) :: r

/-- Strip one trailing carriage return. -/
def stripCarriage (l : List Char) : List Char :=
  if l.getLast? == some '\r' then l.dropLast else l

/-- The lines of a string, as Rust `str::lines` yields them. -/
def linesOf (s : String) : List (List Char) :=
  let segs := splitOnNewline s.data
  let init := segs.dropLast.map stripCarriage
  match segs.getLast? with
  | some [] => init
  | some l => init ++ [l]
  | none => init

/-- The line-by-line loop of `parse_tasks` (tasks.rs:94-131).  State:
whether a task is open, its last captured status, its last captured
pass.  A heading closes the open task (status defaulting to `""`, pass
defaulting to `1`) and opens a fresh one; inside a task each status
match overwrites the status and each pass match whose digits parse as a
`u32` overwrites the pass; the final open task is flushed at the end. -/
def parseLoop : List (List Char) → Bool → Option String → Option Nat → List Task
  | [], inTask, st, ps => if inTask then [⟨ps.getD 1, st.getD ""⟩] else []
  | l :: rest, inTask, st, ps =>
    if isTaskHeading l then
      (if inTask then [⟨ps.getD 1, st.getD ""⟩] else []) ++ parseLoop rest true none none
    else if inTask then
      let st' := match statusCapture l with
                 | some w => some (String.mk w)
                 | none => st
      let ps' := match passCaptureRaw l with
                 | some ds =>
                   match parsePassU32 ds with
                   | some p => some p
                   | none => ps
                 | none => ps
      parseLoop rest true st' ps'
    else
      parseLoop rest inTask st ps

/-- `parse_tasks` (tasks.rs:89-132). -/
def parse_tasks (content : String) : List Task :=
  parseLoop (linesOf content) false none none

/-- `count_uncompleted_tasks` (tasks.rs:8-18), over the plan content. -/
def count_uncompleted_tasks (content : String) (maxPass : Nat) : Nat :=
  ((parse_tasks content).filter fun t =>
    decide (t.pass ≤ maxPass) &&
      (decide (t.status = "TODO") || decide (t.status = "IN_PROGRESS"))).length

/-- `count_blocked_tasks` (tasks.rs:20-30), over the plan content. -/
def count_blocked_tasks (content : String) (maxPass : Nat) : Nat :=
  ((parse_tasks content).filter fun t =>
    decide (t.pass ≤ maxPass) && decide (t.status = "BLOCKED")).length

/-- `all_tasks_done` (tasks.rs:32-34). -/
def all_tasks_done (content : String) (maxPass : Nat) : Bool :=
  decide (count_uncompleted_tasks content maxPass = 0)

/-- `has_blocked_tasks` (tasks.rs:36-38). -/
def has_blocked_tasks (content : String) (maxPass : Nat) : Bool :=
  decide (0 < count_blocked_tasks content maxPass)

/-- The task-status fingerprint domain.  `hash_task_statuses` feeds the
`(index, status)` pairs into `DefaultHasher`; the hash step is modelled
by the injective identity encoding of those pairs (64-bit hash
collisions are abstracted away), so the fingerprint is the pair list
itself. -/
abbrev TaskFingerprint := List (Nat × String)

/-- The `(index, status)` enumeration built by `hash_task_statuses`
(tasks.rs:73-77): `tasks.iter().enumerate().map(|(i, t)| (i, t.status))`. -/
def enumStatuses : Nat → List Task → TaskFingerprint
  | _, [] => []
  | i, t :: rest => (i, t.status) :: enumStatuses (i + 1) rest

/-- `hash_task_statuses` (tasks.rs:66-81): the fingerprint of the
`(index, status)` pairs of the parsed tasks (a missing plan file reads
as the empty string, giving the fingerprint of the empty task list). -/
def hash_task_statuses (content : String) : TaskFingerprint :=
  enumStatuses 0 (parse_tasks content)

/-- Status sequence of the parsed tasks, in order. -/
def statusSeq (content : String) : List String :=
  (parse_tasks content).map Task.status

/-! ## state.rs — persisted spiral state and its serialization -/

/-- `PassPhase` (state.rs:17-25).  `u32` iteration modelled as `Nat`. -/
inductive PassPhase where
  | Refine
  | DdvRed
  | Build (iteration : Nat)
  | Execute
  | Validate
deriving DecidableEq, Repr

/-- `SpiralState` (state.rs:5-15). -/
inductive SpiralState where
  | NotStarted
  | Scoping (attempt : Nat)
  | ScopeReview
  | ScopeComplete
  | InPass (pass : Nat) (phase : PassPhase)
  | PassReview (pass : Nat)
  | Complete (finalPass : Nat)
deriving DecidableEq, Repr

/-- Structured TOML-style value, the target of serde's data model for
`StateFile` (string atoms, integer atoms, and tables). -/
inductive Toml where
  | str (s : String)
  | num (n : Nat)
  | table (fields : List (String × Toml))
deriving Repr

/-- Serialization of `PassPhase` under `#[serde(tag = "phase")]`
(internally tagged): the variant name under key `"phase"`, plus the
variant's fields. -/
def passPhaseToToml : PassPhase → List (String × Toml)
  | .Refine => [("phase", .str "Refine")]
  | .DdvRed => [("phase", .str "DdvRed")]
  | .Build i => [("phase", .str "Build"), ("iteration", .num i)]
  | .Execute => [("phase", .str "Execute")]
  | .Validate => [("phase", .str "Validate")]

/-- Serialization of `SpiralState` under `#[serde(tag = "state")]`,
flattened to the top level by `StateFile`'s `#[serde(flatten)]`
(state.rs:53-58). -/
def spiralStateToToml : SpiralState → List (String × Toml)
  | .NotStarted => [("state", .str "NotStarted")]
  | .Scoping a => [("state", .str "Scoping"), ("attempt", .num a)]
  | .ScopeReview => [("state", .str "ScopeReview")]
  | .ScopeComplete => [("state", .str "ScopeComplete")]
  | .InPass p ph => [("state", .str "InPass"), ("pass", .num p), ("phase", .table (passPhaseToToml ph))]
  | .PassReview p => [("state", .str "PassReview"), ("pass", .num p)]
  | .Complete fp => [("state", .str "Complete"), ("final_pass", .num fp)]

/-- First binding of a key in a table. -/
def lookupField (fields : List (String × Toml)) (k : String) : Option Toml :=
  match fields with
  | [] => none
  | (k', v) :: rest => if k' = k then some v else lookupField rest k

/-- Deserialization of `PassPhase`: dispatch on the `"phase"` tag and
read the tagged variant's fields. -/
def tomlToPassPhase (fields : List (String × Toml)) : Option PassPhase :=
  match lookupField fields "phase" with
  | some (.str "Refine") => some .Refine
  | some (.str "DdvRed") => some .DdvRed
  | some (.str "Build") =>
    match lookupField fields "iteration" with
    | some (.num i) => some (.Build i)
    | _ => none
  | some (.str "Execute") => some .Execute
  | some (.str "Validate") => some .Validate
  | _ => none

/-- Deserialization of `SpiralState`: dispatch on the `"state"` tag and
read the tagged variant's fields. -/
def tomlToSpiralState (fields : List (String × Toml)) : Option SpiralState :=
  match lookupField fields "state" with
  | some (.str "NotStarted") => some .NotStarted
  | some (.str "Scoping") =>
    match lookupField fields "attempt" with
    | some (.num a) => some (.Scoping a)
    | _ => none
  | some (.str "ScopeReview") => some .ScopeReview
  | some (.str "ScopeComplete") => some .ScopeComplete
  | some (.str "InPass") =>
    match lookupField fields "pass", lookupField fields "phase" with
    | some (.num p), some (.table phf) =>
      match tomlToPassPhase phf with
      | some ph => some (.InPass p ph)
      | none => none
    | _, _ => none
  | some (.str "PassReview") =>
    match lookupField fields "pass" with
    | some (.num p) => some (.PassReview p)
    | _ => none
  | some (.str "Complete") =>
    match lookupField fields "final_pass" with
    | some (.num fp) => some (.Complete fp)
    | _ => none
  | _ => none

/-! ## state.rs / usage.rs — durable writes as file-system operations -/

/-- File-system operations issued by the persistence functions.  File
contents are elided: the atomicity question is decided by which
operations occur on which paths. -/
inductive FsWrite where
  | createDirAll (path : String)
  | writeFile (path : String)
  | rename (src dst : String)
deriving DecidableEq, Repr

/-- Whether an operation is a rename. -/
def FsWrite.isRename : FsWrite → Bool
  | .rename _ _ => true
  | _ => false

/-- The operations issued by `save_state` (state.rs:71-81):
`create_dir_all(lisa_root)` then a single direct
`std::fs::write(lisa_root/state.toml, …)`. -/
def save_state_ops (lisaRoot : String) (_state : SpiralState) : List FsWrite :=
  [.createDirAll lisaRoot, .writeFile (lisaRoot ++ "/state.toml")]

/-- One usage-ledger record (usage.rs:8-20).  Token counts as `Nat`,
money as `ℚ`. -/
structure InvocationRecord where
  phase : String
  pass : Nat
  model : String
  inputTokens : Nat
  outputTokens : Nat
  cacheCreationInputTokens : Nat
  cacheReadInputTokens : Nat
  costUsd : ℚ
  elapsedSecs : Nat
  timestamp : String
deriving DecidableEq, Repr

/-- `UsageLedger` (usage.rs:22-26). -/
structure UsageLedger where
  invocations : List InvocationRecord
deriving DecidableEq, Repr

/-- The operations issued by `save_usage` (usage.rs:66-73):
`create_dir_all(lisa_root)` then a single direct
`std::fs::write(lisa_root/usage.toml, …)`. -/
def save_usage_ops (lisaRoot : String) (_ledger : UsageLedger) : List FsWrite :=
  [.createDirAll lisaRoot, .writeFile (lisaRoot ++ "/usage.toml")]

/-! ## usage.rs — budget check -/

/-- Result of `check_budget`: whether it bailed (returned `Err`) and
whether it emitted the non-fatal budget warning. -/
structure BudgetResult where
  failed : Bool
  warned : Bool
deriving DecidableEq, Repr

/-- `check_budget` (usage.rs:102-125): returns `Ok` immediately when the
budget is non-positive; bails when the cumulative cost has reached the
budget; otherwise warns exactly when the cumulative cost has reached
`budget * warn_pct / 100`. -/
def check_budget (cumulativeCost budgetUsd : ℚ) (budgetWarnPct : Nat) : BudgetResult :=
  if budgetUsd ≤ 0 then ⟨false, false⟩
  else if budgetUsd ≤ cumulativeCost then ⟨true, false⟩
  else if budgetUsd * ((budgetWarnPct : ℚ) / 100) ≤ cumulativeCost then ⟨false, true⟩
  else ⟨false, false⟩

/-! ## enforcement.rs — DDV isolation check -/

/-- `ToolCall` (agent.rs:31-40). -/
inductive ToolCall where
  | Read (path : String)
  | Write (path : String)
  | Edit (path : String)
  | Bash (command : String)
  | Glob (pattern : String)
  | Grep (pattern : String)
  | Task (description : String)
  | Other (name : String)
deriving DecidableEq, Repr

/-- Rust `Path::join(root, s)`: an absolute second component replaces
the first; otherwise the components are joined with a single `/`. -/
def pathJoin (root s : String) : String :=
  if strStartsWith s "/" then s
  else if root = "" then s
  else if strEndsWith root "/" then root ++ s
  else root ++ "/" ++ s

/-- `is_under_source` (enforcement.rs:90-105): the path starts with
`src/`, `./src/` or the absolute `project_root/src/` for some
configured source dir `src`, or equals a source dir outright. -/
def is_under_source (path : String) (sourceDirs : List String) (projectRoot : String) : Bool :=
  sourceDirs.any fun src =>
    let absSrc := pathJoin projectRoot src
    strStartsWith path (src ++ "/") || strStartsWith path ("./" ++ src ++ "/") ||
      strStartsWith path (absSrc ++ "/") || decide (path = src)

/-- `command_references_source` (enforcement.rs:107-116): best-effort
substring check for ` src/` or ` ./src/` in the command text. -/
def command_references_source (command : String) (sourceDirs : List String) : Bool :=
  sourceDirs.any fun src =>
    strContains command (" " ++ src ++ "/") || strContains command (" ./" ++ src ++ "/")

/-- The per-call violation filter of `verify_ddv_isolation`
(enforcement.rs:42-48). -/
def isViolation (sourceDirs : List String) (projectRoot : String) : ToolCall → Bool
  | .Read p | .Write p | .Edit p => is_under_source p sourceDirs projectRoot
  | .Bash c => command_references_source c sourceDirs
  | _ => false

/-- `verify_ddv_isolation` (enforcement.rs:33-62), as its error bit:
`true` means the function bailed (at least one violation found). -/
def verify_ddv_isolation (toolLog : List ToolCall) (sourceDirs : List String)
    (projectRoot : String) : Bool :=
  !(toolLog.filter (isViolation sourceDirs projectRoot)).isEmpty

/-! ## review.rs — decision gates -/

/-- `ReviewDecision` (review.rs:11-15). -/
inductive ReviewDecision where
  | Accept
  | Continue
  | Redirect
deriving DecidableEq, Repr

/-- `ScopeDecision` (review.rs:18-23). -/
inductive ScopeDecision where
  | Approve
  | Refine
  | Edit
  | Quit
deriving DecidableEq, Repr

/-- `BlockDecision` (review.rs:26-30). -/
inductive BlockDecision where
  | Fix
  | Skip
  | Abort
deriving DecidableEq, Repr

/-- `scope_review_gate` (review.rs:33-37): with pausing disabled it
returns `Approve` at once; the interactive path is abstracted by the
human's eventual valid choice. -/
def scope_review_gate (pause : Bool) (humanChoice : ScopeDecision) : ScopeDecision :=
  if !pause then .Approve else humanChoice

/-- `review_gate` (review.rs:195-199): with pausing disabled it returns
`Continue` at once; the interactive path (including the downgrade of a
template-only redirect file to `Continue`) is abstracted by its
resulting decision. -/
def review_gate (pause : Bool) (humanOutcome : ReviewDecision) : ReviewDecision :=
  if !pause then .Continue else humanOutcome

/-- `block_gate` (review.rs:316-320): with pausing disabled it returns
`Skip` at once; the interactive path is abstracted by the human's
eventual valid choice. -/
def block_gate (pause : Bool) (humanChoice : BlockDecision) : BlockDecision :=
  if !pause then .Skip else humanChoice

/-- `environment_gate` (review.rs:404-464), as its `Ok(bool)` payload:
`true` means proceed.  With no (or an empty) environment-issue artifact
it proceeds; with pausing disabled it proceeds; both interactive
choices (`Fix` after installation, `Skip`) also proceed. -/
def environment_gate (envIssuePresent : Bool) (pause : Bool) : Bool :=
  if !envIssuePresent then true
  else if !pause then true
  else true

/-! ## orchestrator.rs — build loop and resume dispatch -/

/-- Observations the build loop makes during one iteration, after the
build agent has run: the plan-document queries `all_tasks_done` /
`has_blocked_tasks`, the human's block-gate choice (consulted only when
the gate is reached), the re-read task fingerprint, and
`git::source_changed_in_last_commit`. -/
structure IterObs where
  allDone : Bool
  hasBlocked : Bool
  blockDec : BlockDecision
  curHash : TaskFingerprint
  codeChanged : Bool

/-- Mutable state of the build loop across iterations
(orchestrator.rs:502-503): the previous task fingerprint and the stall
counter. -/
structure LoopState where
  prevHash : TaskFingerprint
  stall : Nat
deriving DecidableEq, Repr

/-- How one iteration of the loop body ends: `abort` models
`return Ok(false)`, `exitLoop` models `break` (the loop then returns
`Ok(true)`), `cont` carries the state into the next iteration. -/
inductive StepOut where
  | abort
  | exitLoop
  | cont (s : LoopState)
deriving DecidableEq, Repr

/-- Result of one iteration of the loop body, recording whether
`review::block_gate` was consulted. -/
structure StepRes where
  out : StepOut
  gateInvoked : Bool
deriving DecidableEq, Repr

/-- The outcome the block gate imposes on the loop
(orchestrator.rs:548-555 and 598-604): `Fix` zeroes the stall counter
and continues, `Abort` returns `Ok(false)`, `Skip` falls through to the
`break`. -/
def blockGateOutcome (dec : BlockDecision) (prevHash : TaskFingerprint) : StepOut :=
  match dec with
  | .Fix => .cont ⟨prevHash, 0⟩
  | .Abort => .abort
  | .Skip => .exitLoop

/-- One iteration of the body of `run_build_loop`
(orchestrator.rs:505-613), after the agent invocation and commit:
completion check first (block gate when blocked tasks remain), then
dual-signal stall detection — the stall counter resets to zero when the
fingerprint or the source tree changed and increments otherwise, the
previous fingerprint is replaced by the current one, and reaching the
stall threshold escalates to the block gate (when blocked tasks exist)
or breaks out of the loop. -/
def buildStep (stallThreshold : Nat) (obs : IterObs) (s : LoopState) : StepRes :=
  if obs.allDone then
    if obs.hasBlocked then ⟨blockGateOutcome obs.blockDec s.prevHash, true⟩
    else ⟨.exitLoop, false⟩
  else
    let tasksChanged := !(decide (obs.curHash = s.prevHash))
    let newStall := if tasksChanged || obs.codeChanged then 0 else s.stall + 1
    if stallThreshold ≤ newStall then
      if obs.hasBlocked then ⟨blockGateOutcome obs.blockDec obs.curHash, true⟩
      else ⟨.exitLoop, false⟩
    else ⟨.cont ⟨obs.curHash, newStall⟩, false⟩

/-- The iteration recursion of `run_build_loop`: `fuel` counts the
iterations left in `iter..=max_ralph_iterations`.  Returns the `Ok`
payload and the list of iteration numbers whose bodies ran. -/
def buildLoopGo (stallThreshold : Nat) (env : Nat → IterObs) :
    Nat → Nat → LoopState → Bool × List Nat
  | 0, _, _ => (true, [])
  | fuel + 1, iter, s =>
    match (buildStep stallThreshold (env iter) s).out with
    | .abort => (false, [iter])
    | .exitLoop => (true, [iter])
    | .cont s' =>
      let r := buildLoopGo stallThreshold env fuel (iter + 1) s'
      (r.1, iter :: r.2)

/-- `run_build_loop` (orchestrator.rs:490-616): iterates
`start_iter..=max_ralph_iterations` with the stall counter starting at
zero and the previous fingerprint read once before the loop. -/
def run_build_loop (stallThreshold maxRalphIterations : Nat) (env : Nat → IterObs)
    (initHash : TaskFingerprint) (startIter : Nat) : Bool × List Nat :=
  buildLoopGo stallThreshold env (maxRalphIterations + 1 - startIter) startIter ⟨initHash, 0⟩

/-- The `start_iter` argument `resume_from_phase` (orchestrator.rs:
108-174) passes to `run_build_loop` for each persisted phase — `1` when
resuming from `Refine` or `DdvRed` (lines 121, 131), the persisted
`iteration` when resuming from `Build{iteration}` (line 143), and no
build-loop call at all for `Execute`/`Validate`. -/
def resume_build_start : PassPhase → Option Nat
  | .Refine => some 1
  | .DdvRed => some 1
  | .Build iteration => some iteration
  | .Execute => none
  | .Validate => none

/-- The `start_iter` argument a fresh pass uses: `run_pass_range`
(orchestrator.rs:199) always calls `run_build_loop(…, 1)`. -/
def fresh_pass_build_start : Nat := 1

/-! ## Status-relevant line signatures

Only two kinds of line influence the status outcome of `parse_tasks`:
task headings and status-metadata lines.  `lineSig` extracts, per line,
exactly the information those contribute; everything else (description
text after the heading match, checklists, prose, pass lines) is
status-irrelevant. -/

/-- What a line contributes to status extraction. -/
inductive LineSig where
  | heading
  | statusLine (w : List Char)
deriving DecidableEq, Repr

/-- The status-relevant signature of one line: task headings signal a
task boundary (the heading's own text is otherwise ignored, matching
the `else if` in the parse loop), other lines contribute only their
status capture. -/
def lineSig (l : List Char) : Option LineSig :=
  if isTaskHeading l then some .heading
  else
    match statusCapture l with
    | some w => some (.statusLine w)
    | none => none

/-- The status-relevant signatures of a plan document. -/
def sigs (content : String) : List LineSig :=
  (linesOf content).filterMap lineSig

/-- The projection of `parseLoop` onto the status sequence it produces
(the `pass` bookkeeping does not feed into statuses). -/
def statusLoop : List (List Char) → Bool → Option String → List String
  | [], inT, st => if inT then [st.getD ""] else []
  | l :: rest, inT, st =>
    if isTaskHeading l then
      (if inT then [st.getD ""] else []) ++ statusLoop rest true none
    else if inT then
      statusLoop rest true
        (match statusCapture l with
         | some w => some (String.mk w)
         | none => st)
    else
      statusLoop rest inT st

/-- `statusLoop` driven by line signatures alone. -/
def sigLoop : List LineSig → Bool → Option String → List String
  | [], inT, st => if inT then [st.getD ""] else []
  | .heading :: rest, inT, st =>
    (if inT then [st.getD ""] else []) ++ sigLoop rest true none
  | .statusLine w :: rest, inT, st =>
    if inT then sigLoop rest true (some (String.mk w)) else sigLoop rest inT st

/-! ## Concrete fixture documents and environments -/

/-- Plan with one DONE task in pass 1 and one BLOCKED task in pass 2. -/
def planDoneBlocked : String :=
  "### Task 1: First\n- **Status:** DONE\n- **Pass:** 1\n\n### Task 2: Second\n- **Status:** BLOCKED\n- **Pass:** 2\n"

/-- Plan whose single task heading has no status metadata line. -/
def planNoStatus : String := "### Task 1: Mystery\n- **Pass:** 1\n"

/-- A one-task plan. -/
def descA : String :=
  "### Task 1: Original description\n- **Status:** TODO\n- **Pass:** 1\n- **Checklist:**\n  - [ ] Do something\n"

/-- `descA` with description, checklist and prose edited, status kept. -/
def descB : String :=
  "### Task 1: Rewritten with more words\n- **Status:** TODO\n- **Pass:** 1\n  - [ ] Do something different\n\nSome added prose here.\n"

/-- `descA` with only the status changed. -/
def descC : String :=
  "### Task 1: Original description\n- **Status:** DONE\n- **Pass:** 1\n- **Checklist:**\n  - [ ] Do something\n"

/-- A build-loop environment in which nothing ever changes and no task
is ever done. -/
def envQuiet : Nat → IterObs := fun _ => ⟨false, false, .Skip, [], false⟩

/-- The progress condition of the claimed stall law: the task-status
fingerprint changed since the previous iteration, or a tracked source
directory changed in the most recent commit. -/
def stallProgress (obs : IterObs) (s : LoopState) : Prop :=
  obs.curHash ≠ s.prevHash ∨ obs.codeChanged = true

instance stallProgressDec (obs : IterObs) (s : LoopState) : Decidable (stallProgress obs s) := by
  unfold stallProgress
  infer_instance

/-- The claimed value of the stall counter after a non-completion
iteration: zero on progress, incremented by one otherwise. -/
def newStallCount (obs : IterObs) (s : LoopState) : Nat :=
  if stallProgress obs s then 0 else s.stall + 1

end Lisa

namespace Lisa

example : parse_tasks "### Task 1: Setup\n- **Status:** DONE\n- **Pass:** 1\n\n### Task 2: Core\n- **Status:** TODO\n- **Pass:** 1\n\n### Task 3: Adv\n- **Status:** BLOCKED\n- **Pass:** 2\n" =
    [⟨1, "DONE"⟩, ⟨1, "TODO"⟩, ⟨2, "BLOCKED"⟩] := by decide

example : parse_tasks "# Implementation Plan\n\n## Tasks\n" = [] := by decide

example : parse_tasks "## Task 1: Two\n- **Status:** TODO\n- **Pass:** 1\n\n#### Task 2: Four\n- **Status:**  DONE\n- **Pass:** 2\n\n### task 3: lower\n- **Status:** IN_PROGRESS\n" =
    [⟨1, "TODO"⟩, ⟨2, "DONE"⟩, ⟨1, "IN_PROGRESS"⟩] := by decide

/-! ## Helper lemmas -/

theorem buildLoopGo_head (th : Nat) (env : Nat → IterObs) (fuel iter : Nat) (s : LoopState) :
    ((buildLoopGo th env (fuel + 1) iter s).2).head? = some iter := by
  rcases hout : (buildStep th (env iter) s).out with _ | _ | s' <;>
    simp [buildLoopGo, hout]

theorem filter_not_isEmpty_iff {α : Type} (p : α → Bool) (l : List α) :
    ((!(l.filter p).isEmpty) = true) ↔ ∃ a ∈ l, p a = true := by
  induction l with
  | nil => simp
  | cons a t ih =>
    by_cases h : p a = true <;>
      simp [List.filter_cons, h, ih]

theorem isViolation_iff (sourceDirs : List String) (projectRoot : String) (c : ToolCall) :
    isViolation sourceDirs projectRoot c = true ↔
      (∃ p, (c = .Read p ∨ c = .Write p ∨ c = .Edit p) ∧
        is_under_source p sourceDirs projectRoot = true) ∨
      (∃ cmd, c = .Bash cmd ∧ command_references_source cmd sourceDirs = true) := by
  cases c <;> simp [isViolation]

theorem parseLoop_map_status (ls : List (List Char)) :
    ∀ (inT : Bool) (st : Option String) (ps : Option Nat),
      (parseLoop ls inT st ps).map Task.status = statusLoop ls inT st := by
  induction ls with
  | nil => intro inT st ps; cases inT <;> simp [parseLoop, statusLoop]
  | cons l rest ih =>
    intro inT st ps
    by_cases hh : isTaskHeading l = true <;>
      cases inT <;> simp [parseLoop, statusLoop, hh, ih]

theorem statusLoop_eq_sigLoop (ls : List (List Char)) :
    ∀ (inT : Bool) (st : Option String),
      statusLoop ls inT st = sigLoop (ls.filterMap lineSig) inT st := by
  induction ls with
  | nil => intro inT st; rfl
  | cons l rest ih =>
    intro inT st
    by_cases hh : isTaskHeading l = true
    · simp [statusLoop, lineSig, hh, sigLoop, ih]
    · cases hs : statusCapture l with
      | some w => cases inT <;> simp [statusLoop, lineSig, hh, hs, sigLoop, ih]
      | none => cases inT <;> simp [statusLoop, lineSig, hh, hs, ih]

theorem enumStatuses_eq_iff (l₁ : List Task) :
    ∀ (n : Nat) (l₂ : List Task),
      enumStatuses n l₁ = enumStatuses n l₂ ↔ l₁.map Task.status = l₂.map Task.status := by
  induction l₁ with
  | nil => intro n l₂; cases l₂ <;> simp [enumStatuses]
  | cons t r ih =>
    intro n l₂
    cases l₂ with
    | nil => simp [enumStatuses]
    | cons t₂ r₂ => simp [enumStatuses, ih (n + 1)]

/-! ## Claim theorems -/

/-- C7: serializing any `SpiralState` — every variant, including nested
`InPass{pass, Build{iteration}}` — and deserializing the result yields
the original value. -/
theorem spiral_state_roundtrip (s : SpiralState) :
    tomlToSpiralState (spiralStateToToml s) = some s := by
  cases s with
  | InPass p ph => cases ph <;> rfl
  | _ => rfl

/-- C9: with review pausing disabled, every gate returns its safe
default regardless of what a human would have answered: the scope
review gate approves, the pass review gate continues, the block gate
skips, and the environment gate proceeds. -/
theorem review_gates_no_pause_defaults (hs : ScopeDecision) (hr : ReviewDecision)
    (hb : BlockDecision) (envIssue : Bool) :
    scope_review_gate false hs = .Approve ∧ review_gate false hr = .Continue ∧
      block_gate false hb = .Skip ∧ environment_gate envIssue false = true := by
  refine ⟨rfl, rfl, rfl, ?_⟩
  cases envIssue <;> rfl

/-- C4: neither `save_state` nor `save_usage` performs any rename — each
issues a single direct write to the final path (`state.toml` /
`usage.toml`), so the write-temp-then-rename atomicity the claim
describes is absent from the code. -/
theorem state_writes_not_atomic (lisaRoot : String) (s : SpiralState) (ledger : UsageLedger) :
    ((save_state_ops lisaRoot s).all fun op => !op.isRename) = true ∧
      FsWrite.writeFile (lisaRoot ++ "/state.toml") ∈ save_state_ops lisaRoot s ∧
      ((save_usage_ops lisaRoot ledger).all fun op => !op.isRename) = true ∧
      FsWrite.writeFile (lisaRoot ++ "/usage.toml") ∈ save_usage_ops lisaRoot ledger := by
  refine ⟨rfl, ?_, rfl, ?_⟩ <;> simp [save_state_ops, save_usage_ops]

/-- C1: resuming from `InPass{pass, Build{iteration}}` hands the
persisted iteration to `run_build_loop` as its starting iteration, and
the loop's first executed iteration is exactly that number (whenever it
is within the configured bound), whereas a fresh pass always starts the
build loop at iteration 1. -/
theorem resume_reenters_build_iteration (pass iteration stallThreshold maxRalphIterations : Nat)
    (env : Nat → IterObs) (initHash : TaskFingerprint) :
    resume_build_start (.Build iteration) = some iteration ∧
      fresh_pass_build_start = 1 ∧
      (iteration ≤ maxRalphIterations →
        ((run_build_loop stallThreshold maxRalphIterations env initHash iteration).2).head? =
          some iteration) ∧
      (1 ≤ maxRalphIterations →
        ((run_build_loop stallThreshold maxRalphIterations env initHash 1).2).head? = some 1) := by
  refine ⟨rfl, rfl, fun hle => ?_, fun hle => ?_⟩
  · unfold run_build_loop
    obtain ⟨f, hf⟩ : ∃ f, maxRalphIterations + 1 - iteration = f + 1 :=
      ⟨maxRalphIterations - iteration, by omega⟩
    rw [hf]
    exact buildLoopGo_head ..
  · unfold run_build_loop
    obtain ⟨f, hf⟩ : ∃ f, maxRalphIterations + 1 - 1 = f + 1 :=
      ⟨maxRalphIterations - 1, by omega⟩
    rw [hf]
    exact buildLoopGo_head ..

theorem resume_reenters_build_iteration_witness :
    ((run_build_loop 2 50 envQuiet [] 3).2).head? = some 3 ∧
      resume_build_start (.Build 3) = some 3 :=
  ⟨(resume_reenters_build_iteration 1 3 2 50 envQuiet []).2.2.1 (by decide),
   (resume_reenters_build_iteration 1 3 2 50 envQuiet []).1⟩

/-- C2: in any build-loop iteration where not all tasks are done, the
stall counter becomes 0 when the fingerprint or the source tree
changed and is incremented by 1 when neither changed; the iteration is
treated as a stall — consulting the block gate when blocked tasks
exist, otherwise breaking out of the loop — exactly when the counter
reaches the configured threshold, and otherwise the loop just carries
the new counter into the next iteration. -/
theorem build_stall_detection_spec (stallThreshold : Nat) (obs : IterObs) (s : LoopState)
    (hnotdone : obs.allDone = false) :
    (stallProgress obs s → newStallCount obs s = 0) ∧
      (¬stallProgress obs s → newStallCount obs s = s.stall + 1) ∧
      (newStallCount obs s < stallThreshold →
        buildStep stallThreshold obs s = ⟨.cont ⟨obs.curHash, newStallCount obs s⟩, false⟩) ∧
      (stallThreshold ≤ newStallCount obs s → obs.hasBlocked = true →
        buildStep stallThreshold obs s = ⟨blockGateOutcome obs.blockDec obs.curHash, true⟩) ∧
      (stallThreshold ≤ newStallCount obs s → obs.hasBlocked = false →
        buildStep stallThreshold obs s = ⟨.exitLoop, false⟩) ∧
      ((buildStep stallThreshold obs s).gateInvoked = true ↔
        stallThreshold ≤ newStallCount obs s ∧ obs.hasBlocked = true) := by
  have hstep : buildStep stallThreshold obs s =
      (if stallThreshold ≤ newStallCount obs s then
         (if obs.hasBlocked then ⟨blockGateOutcome obs.blockDec obs.curHash, true⟩
          else ⟨.exitLoop, false⟩)
       else ⟨.cont ⟨obs.curHash, newStallCount obs s⟩, false⟩) := by
    unfold buildStep
    rw [if_neg (by simp [hnotdone])]
    by_cases h1 : obs.curHash = s.prevHash <;> by_cases h2 : obs.codeChanged = true <;>
      simp [h1, h2, newStallCount, stallProgress]
  refine ⟨fun hp => by simp [newStallCount, hp], fun hp => by simp [newStallCount, hp],
    fun hlt => ?_, fun hge hbk => ?_, fun hge hbk => ?_, ?_⟩
  · rw [hstep, if_neg (not_le.mpr hlt)]
  · rw [hstep, if_pos hge, if_pos hbk]
  · rw [hstep, if_pos hge, if_neg (by simp [hbk])]
  · rw [hstep]
    by_cases hge : stallThreshold ≤ newStallCount obs s
    · cases hbk : obs.hasBlocked <;> simp [hge, hbk]
    · simp [hge]

theorem build_stall_detection_spec_witness :
    buildStep 2 ⟨false, false, .Fix, [(0, "TODO")], false⟩ ⟨[(0, "TODO")], 0⟩ =
      ⟨.cont ⟨[(0, "TODO")], 1⟩, false⟩ := by
  have h := build_stall_detection_spec 2 ⟨false, false, .Fix, [(0, "TODO")], false⟩
    ⟨[(0, "TODO")], 0⟩ rfl
  have h3 := h.2.2.1 (by decide)
  simpa using h3

/-- C3 counterexample: at cumulative = -11, limit = -10, warn_pct = 120,
the code emits no warning (the non-positive limit returns early), yet
the claimed warning condition `limit * warn_pct / 100 <= cumulative <
limit` holds, so the claim's unscoped warning iff is false. -/
theorem check_budget_warn_iff_cex :
    (check_budget (-11) (-10) 120).warned = false ∧
      (-10 : ℚ) * ((120 : ℚ) / 100) ≤ -11 ∧ (-11 : ℚ) < -10 := by
  refine ⟨?_, by norm_num, by norm_num⟩
  unfold check_budget
  rw [if_pos (by norm_num : (-10 : ℚ) ≤ 0)]

/-- C3 (amended): `check_budget` returns success with no warning for a
non-positive limit regardless of cumulative; for a positive limit it
fails iff cumulative ≥ limit, and it warns iff
`limit * warn_pct / 100 ≤ cumulative < limit`. -/
theorem check_budget_spec (cumulativeCost budgetUsd : ℚ) (budgetWarnPct : Nat) :
    (budgetUsd ≤ 0 → check_budget cumulativeCost budgetUsd budgetWarnPct = ⟨false, false⟩) ∧
      (0 < budgetUsd →
        ((check_budget cumulativeCost budgetUsd budgetWarnPct).failed = true ↔
          budgetUsd ≤ cumulativeCost)) ∧
      (0 < budgetUsd →
        ((check_budget cumulativeCost budgetUsd budgetWarnPct).warned = true ↔
          budgetUsd * ((budgetWarnPct : ℚ) / 100) ≤ cumulativeCost ∧
            cumulativeCost < budgetUsd)) := by
  refine ⟨fun hb => ?_, fun hb => ?_, fun hb => ?_⟩
  · unfold check_budget
    rw [if_pos hb]
  · unfold check_budget
    rw [if_neg (by linarith)]
    by_cases h2 : budgetUsd ≤ cumulativeCost
    · rw [if_pos h2]
      simpa using h2
    · rw [if_neg h2]
      by_cases h3 : budgetUsd * ((budgetWarnPct : ℚ) / 100) ≤ cumulativeCost
      · rw [if_pos h3]
        simp [h2]
      · rw [if_neg h3]
        simp [h2]
  · unfold check_budget
    rw [if_neg (by linarith)]
    by_cases h2 : budgetUsd ≤ cumulativeCost
    · rw [if_pos h2]
      exact iff_of_false (by simp) fun ⟨_, hlt⟩ => absurd h2 (not_le.mpr hlt)
    · rw [if_neg h2]
      by_cases h3 : budgetUsd * ((budgetWarnPct : ℚ) / 100) ≤ cumulativeCost
      · rw [if_pos h3]
        exact iff_of_true rfl ⟨h3, not_le.mp h2⟩
      · rw [if_neg h3]
        exact iff_of_false (by simp) fun ⟨ha, _⟩ => h3 ha

theorem check_budget_spec_witness :
    (check_budget 9 10 80).failed = false ∧ (check_budget 9 10 80).warned = true := by
  have h := check_budget_spec 9 10 80
  constructor
  · have h2 := h.2.1 (by norm_num)
    by_cases hf : (check_budget 9 10 80).failed = true
    · exact absurd (h2.mp hf) (by norm_num)
    · simpa using hf
  · refine (h.2.2 (by norm_num)).mpr ⟨?_, by norm_num⟩
    push_cast
    norm_num

/-- C5: `verify_ddv_isolation` fails exactly when the tool-call log
contains a Read, Write or Edit call whose path falls under a configured
source directory, or a Bash call whose command text references a source
directory as a path segment; in particular `Read{path="src/main.x"}`
against source dir `src` is flagged and `Read{path="tests/ddv/foo.x"}`
is not. -/
theorem verify_ddv_isolation_spec (toolLog : List ToolCall) (sourceDirs : List String)
    (projectRoot : String) :
    (verify_ddv_isolation toolLog sourceDirs projectRoot = true ↔
      ∃ c ∈ toolLog,
        (∃ p, (c = .Read p ∨ c = .Write p ∨ c = .Edit p) ∧
          is_under_source p sourceDirs projectRoot = true) ∨
        (∃ cmd, c = .Bash cmd ∧ command_references_source cmd sourceDirs = true)) ∧
      verify_ddv_isolation [.Read "src/main.x"] ["src"] "/project" = true ∧
      verify_ddv_isolation [.Read "tests/ddv/foo.x"] ["src"] "/project" = false := by
  refine ⟨?_, by decide, by decide⟩
  rw [verify_ddv_isolation, filter_not_isEmpty_iff]
  exact exists_congr fun c => and_congr_right fun _ => isViolation_iff ..

theorem verify_ddv_isolation_spec_witness :
    verify_ddv_isolation [ToolCall.Read "src/main.x", ToolCall.Bash "cat src/main.rs"]
        ["src"] "/project" = true :=
  (verify_ddv_isolation_spec _ _ _).1.mpr
    ⟨.Read "src/main.x", by decide, Or.inl ⟨"src/main.x", Or.inl rfl, by decide⟩⟩

/-- C6: for every plan document (including one with zero tasks), the
task-status fingerprint is unchanged by any edit that preserves the
status-relevant line signatures (task headings and status captures —
descriptions, checklists, pass lines and prose contribute nothing),
and it changes exactly when the sequence of task statuses changes. -/
theorem hash_task_statuses_spec (c₁ c₂ : String) :
    (sigs c₁ = sigs c₂ → hash_task_statuses c₁ = hash_task_statuses c₂) ∧
      (hash_task_statuses c₁ = hash_task_statuses c₂ ↔ statusSeq c₁ = statusSeq c₂) := by
  have key : ∀ c : String, statusSeq c = sigLoop (sigs c) false none := by
    intro c
    rw [statusSeq, parse_tasks, parseLoop_map_status, statusLoop_eq_sigLoop]
    rfl
  have hiff : hash_task_statuses c₁ = hash_task_statuses c₂ ↔ statusSeq c₁ = statusSeq c₂ := by
    unfold hash_task_statuses statusSeq
    exact enumStatuses_eq_iff (parse_tasks c₁) 0 (parse_tasks c₂)
  exact ⟨fun hs => hiff.mpr (by rw [key c₁, key c₂, hs]), hiff⟩

theorem hash_task_statuses_spec_witness :
    hash_task_statuses descA = hash_task_statuses descB ∧
      hash_task_statuses descA ≠ hash_task_statuses descC := by
  constructor
  · exact (hash_task_statuses_spec descA descB).1 (by decide)
  · intro h
    exact absurd ((hash_task_statuses_spec descA descC).2.mp h) (by decide)

/-- C8: on the plan with tasks `{DONE, pass 1}` and `{BLOCKED, pass 2}`,
`all_tasks_done(1)` is true, `has_blocked_tasks(1)` is false and
`has_blocked_tasks(2)` is true; in general `all_tasks_done` is true
exactly when no task within the pass bound is TODO or IN_PROGRESS, so
BLOCKED tasks are ignored. -/
theorem all_tasks_done_spec :
    all_tasks_done planDoneBlocked 1 = true ∧
      has_blocked_tasks planDoneBlocked 1 = false ∧
      has_blocked_tasks planDoneBlocked 2 = true ∧
      (∀ (content : String) (maxPass : Nat),
        all_tasks_done content maxPass = true ↔
          ∀ t ∈ parse_tasks content,
            t.pass ≤ maxPass → t.status ≠ "TODO" ∧ t.status ≠ "IN_PROGRESS") := by
  refine ⟨by decide, by decide, by decide, fun content maxPass => ?_⟩
  simp only [all_tasks_done, decide_eq_true_eq, count_uncompleted_tasks,
    List.length_eq_zero, List.filter_eq_nil_iff, Bool.and_eq_true, Bool.or_eq_true,
    not_and, not_or]

theorem all_tasks_done_spec_witness : all_tasks_done planDoneBlocked 1 = true :=
  (all_tasks_done_spec.2.2.2 planDoneBlocked 1).mpr (by decide)

/-- C10: a task heading followed by no status metadata parses with the
empty status string; such a task is counted by neither
`count_uncompleted_tasks` nor `count_blocked_tasks` (their filter
predicates reject the empty status), so `all_tasks_done` returns true
for a plan whose only task has no recorded status. -/
theorem unstatused_task_uncounted :
    parse_tasks planNoStatus = [⟨1, ""⟩] ∧
      count_uncompleted_tasks planNoStatus 1 = 0 ∧
      count_blocked_tasks planNoStatus 1 = 0 ∧
      all_tasks_done planNoStatus 1 = true ∧
      (∀ (content : String) (maxPass : Nat) (t : Task),
        t ∈ parse_tasks content → t.status = "" →
          (decide (t.pass ≤ maxPass) &&
            (decide (t.status = "TODO") || decide (t.status = "IN_PROGRESS"))) = false ∧
          (decide (t.pass ≤ maxPass) && decide (t.status = "BLOCKED")) = false) := by
  refine ⟨by decide, by decide, by decide, by decide, fun content maxPass t _ hst => ?_⟩
  have h1 : (decide (("" : String) = "TODO") || decide (("" : String) = "IN_PROGRESS")) = false :=
    by decide
  have h2 : decide (("" : String) = "BLOCKED") = false := by decide
  rw [hst]
  rw [h1, h2]
  exact ⟨by simp, by simp⟩

theorem unstatused_task_uncounted_witness :
    all_tasks_done planNoStatus 1 = true ∧
      (decide ((1 : Nat) ≤ 1) &&
        (decide (("" : String) = "TODO") || decide (("" : String) = "IN_PROGRESS"))) = false := by
  refine ⟨unstatused_task_uncounted.2.2.2.1, ?_⟩
  have h := unstatused_task_uncounted.2.2.2.2 planNoStatus 1 ⟨1, ""⟩ (by decide) rfl
  exact h.1

end Lisa
